import Mathlib

/-!
Verification of the operator-side control loop of the RC repository
(`src/front/rc-car-front/src/App.vue`).

The development shallowly embeds the script of `App.vue`:
JavaScript numbers are modelled as rationals, the per-tick input fusion of
`gameLoop` as a pure function, the rate-limited transmitter as a state
transition on the transmitter state, and the WebSocket connection manager and
the `requestAnimationFrame` polling loop as labelled transition systems driven
by the browser's single-threaded event queue.
-/

namespace RCFront

/-! ## Input sampling and command fusion (App.vue lines 19-25, 83-109) -/

/-- State of the four keyboard switches `w`, `a`, `s`, `d`
(the `keyState` object, App.vue line 19). -/
structure KeyState where
  w : Bool
  a : Bool
  s : Bool
  d : Bool
  deriving DecidableEq, Repr

/-- One sample of the first connected gamepad: `axes[0]`, `axes[1]`,
`buttons[0].pressed`, `buttons[1].pressed` (App.vue lines 100-108). -/
structure GamepadSample where
  axis0 : ℚ
  axis1 : ℚ
  button0 : Bool
  button1 : Bool
  deriving DecidableEq, Repr

/-- The fused per-tick command: the values `lx`, `ly`, `cross`, `circle`
as they stand after lines 88-109 of `gameLoop`. -/
structure Command where
  axisX : ℚ
  axisY : ℚ
  cross : Bool
  circle : Bool
  deriving DecidableEq, Repr

/-- Input fusion of one `gameLoop` tick (App.vue lines 88-109): the keyboard
keys contribute ±1.0 to the axes, then, when a controller is present, its axes
are added, the result is limited with `Math.max(-1.0, Math.min(1.0, ·))`, and
its first two buttons are read.  When no controller is present the clamping
lines are not executed and the triggers keep their initial `false`. -/
def fuse (ks : KeyState) (gp : Option GamepadSample) : Command :=
  let lx : ℚ := 0
  let ly : ℚ := 0
  let ly := if ks.w then ly - 1 else ly
  let ly := if ks.s then ly + 1 else ly
  let lx := if ks.a then lx - 1 else lx
  let lx := if ks.d then lx + 1 else lx
  match gp with
  | some g =>
    let lx := lx + g.axis0
    let ly := ly + g.axis1
    let lx := max (-1) (min 1 lx)
    let ly := max (-1) (min 1 ly)
    { axisX := lx, axisY := ly, cross := g.button0, circle := g.button1 }
  | none => { axisX := lx, axisY := ly, cross := false, circle := false }

/-- `Math.max(-1.0, Math.min(1.0, x))` (App.vue lines 104-105). -/
def clamp (x : ℚ) : ℚ := max (-1) (min 1 x)

/-- Net keyboard contribution to the x axis: −1.0 when `a` is held,
+1.0 when `d` is held (App.vue lines 96-97). -/
def keyContribX (ks : KeyState) : ℚ :=
  (if ks.a then (-1 : ℚ) else 0) + (if ks.d then 1 else 0)

/-- Net keyboard contribution to the y axis: −1.0 when `w` is held,
+1.0 when `s` is held (App.vue lines 94-95). -/
def keyContribY (ks : KeyState) : ℚ :=
  (if ks.w then (-1 : ℚ) else 0) + (if ks.s then 1 else 0)

/-- Analog contribution to the x axis: the controller's `axes[0]` when a
controller is present, zero otherwise. -/
def analogContribX : Option GamepadSample → ℚ
  | none => 0
  | some g => g.axis0

/-- Analog contribution to the y axis: the controller's `axes[1]` when a
controller is present, zero otherwise. -/
def analogContribY : Option GamepadSample → ℚ
  | none => 0
  | some g => g.axis1

/-! ## Serialization: `toFixed(3)` and `JSON.stringify` (App.vue lines 115-124) -/

/-- The decimal digit character for `d` (`0 ≤ d ≤ 9`). -/
def digitChar (d : Nat) : Char := Char.ofNat (48 + d)

/-- Lower-case hexadecimal digit character for `n` (`0 ≤ n ≤ 15`). -/
def hexDigit (n : Nat) : Char := if n < 10 then digitChar n else Char.ofNat (87 + n)

/-- Decimal rendering of a natural number, most significant digit first. -/
def natToDecList (n : Nat) : List Char :=
  if h : n < 10 then [digitChar n]
  else natToDecList (n / 10) ++ [digitChar (n % 10)]
  decreasing_by exact Nat.div_lt_self (by omega) (by omega)

/-- The fractional part of `toFixed(3)`: three decimal digits, zero-padded on
the left. -/
def pad3 (n : Nat) : List Char :=
  if n < 10 then '0' :: '0' :: natToDecList n
  else if n < 100 then '0' :: natToDecList n
  else natToDecList n

/-- `x.toFixed(3)` for non-negative `x` (ECMA-262 `Number.prototype.toFixed`):
the integer `n` nearest to `x·1000` (ties towards the larger `n`), rendered
with exactly three fractional digits. -/
def toFixed3Mag (x : ℚ) : List Char :=
  let n : Nat := (Int.floor (x * 1000 + 1/2)).toNat
  natToDecList (n / 1000) ++ '.' :: pad3 (n % 1000)

/-- `x.toFixed(3)`: a leading sign for negative `x`, then the rendering of the
magnitude. -/
def toFixed3 (x : ℚ) : List Char :=
  if x < 0 then '-' :: toFixed3Mag (-x) else toFixed3Mag x

/-- `JSON.stringify` escaping of one character inside a string literal. -/
def escChar (c : Char) : List Char :=
  if c = '"' then ['\\', '"']
  else if c = '\\' then ['\\', '\\']
  else if c = '\x08' then ['\\', 'b']
  else if c = '\x09' then ['\\', 't']
  else if c = '\x0a' then ['\\', 'n']
  else if c = '\x0c' then ['\\', 'f']
  else if c = '\x0d' then ['\\', 'r']
  else if c.toNat < 32 then ['\\', 'u', '0', '0', hexDigit (c.toNat / 16), hexDigit (c.toNat % 16)]
  else [c]

/-- `JSON.stringify` escaping of a whole string body. -/
def escapeList : List Char → List Char
  | [] => []
  | c :: cs => escChar c ++ escapeList cs

/-- A JSON leaf as produced by the control object: a string or a boolean. -/
inductive JAtom where
  | str (s : List Char)
  | bool (b : Bool)
  deriving DecidableEq

/-- `JSON.stringify` of one leaf. -/
def stringifyAtom : JAtom → List Char
  | .str s => '"' :: (escapeList s ++ ['"'])
  | .bool b => if b then "true".data else "false".data

/-- `JSON.stringify` of the comma-separated `"key":value` members of a flat
object, in insertion order. -/
def stringifyFields : List (List Char × JAtom) → List Char
  | [] => []
  | [(k, v)] => '"' :: (escapeList k ++ '"' :: ':' :: stringifyAtom v)
  | (k, v) :: rest =>
    ('"' :: (escapeList k ++ '"' :: ':' :: stringifyAtom v)) ++ ',' :: stringifyFields rest

/-- `JSON.stringify` of a flat object. -/
def stringifyObjList (fs : List (List Char × JAtom)) : List Char :=
  '\x7b' :: (stringifyFields fs ++ ['\x7d'])

/-- The `controlData` object literal of `gameLoop` (App.vue lines 115-121),
with its members in insertion order. -/
def controlData (lx ly : ℚ) (cross circle : Bool) : List (List Char × JAtom) :=
  [("type".data, .str "control".data),
   ("left_x".data, .str (toFixed3 lx)),
   ("left_y".data, .str (toFixed3 ly)),
   ("cross_b".data, .bool cross),
   ("circle_b".data, .bool circle)]

/-- `JSON.stringify(controlData)`, the text record passed to `ws.send`
(App.vue line 124). -/
def controlMessage (lx ly : ℚ) (cross circle : Bool) : String :=
  ⟨stringifyObjList (controlData lx ly cross circle)⟩

/-- Written from the spec's serialization contract, as the refinement target
for C9: the record is the text
`\x7b"type":"control","left_x":…,"left_y":…,"cross_b":…,"circle_b":…\x7d`
where the two axis values are quoted fixed-precision decimal text with three
fractional digits and the two triggers are JSON booleans. -/
def specWireRecord (lx ly : ℚ) (cross circle : Bool) : String :=
  ⟨"\x7b\"type\":\"control\",\"left_x\":\"".data ++ toFixed3 lx ++
   "\",\"left_y\":\"".data ++ toFixed3 ly ++
   "\",\"cross_b\":".data ++ (if cross then "true".data else "false".data) ++
   ",\"circle_b\":".data ++ (if circle then "true".data else "false".data) ++
   "\x7d".data⟩

/-! ## Rate-limited transmitter (App.vue lines 15-16, 64-66, 111-136) -/

/-- `SEND_INTERVAL = 50` milliseconds (App.vue line 16). -/
def SEND_INTERVAL : ℚ := 50

/-- Mutable state read and written by the send branch of `gameLoop`:
`lastSentTime` (App.vue line 15) and the `logCounter` of the enclosing
`startGamepadPolling` call (line 81). -/
structure TxState where
  lastSentTime : ℚ
  logCounter : Nat
  deriving DecidableEq, Repr

/-- Result of the transmit part of one `gameLoop` tick. -/
structure TickResult where
  st : TxState
  sent : Option String
  warned : Bool
  deriving DecidableEq, Repr

/-- The transmit part of one `gameLoop` tick (App.vue lines 111-136), given
whether `ws && ws.readyState === WebSocket.OPEN` holds, the current
`performance.now()` and this tick's fused values: when open and strictly more
than `SEND_INTERVAL` elapsed since `lastSentTime`, the control record is sent
and `lastSentTime` updated; when not open, the command is dropped,
`logCounter` is incremented and a warning is logged on every 60th such tick. -/
def tick (st : TxState) (wsOpen : Bool) (now : ℚ) (lx ly : ℚ) (cross circle : Bool) :
    TickResult :=
  if wsOpen then
    if now - st.lastSentTime > SEND_INTERVAL then
      { st := { lastSentTime := now, logCounter := st.logCounter },
        sent := some (controlMessage lx ly cross circle),
        warned := false }
    else { st := st, sent := none, warned := false }
  else
    let lc := st.logCounter + 1
    { st := { lastSentTime := st.lastSentTime, logCounter := lc },
      sent := none,
      warned := (lc % 60 == 0) }

/-- One full `gameLoop` tick: fuse the sampled inputs, then transmit. -/
def gameLoopTick (ks : KeyState) (gp : Option GamepadSample) (st : TxState)
    (wsOpen : Bool) (now : ℚ) : TickResult :=
  let c := fuse ks gp
  tick st wsOpen now c.axisX c.axisY c.cross c.circle

/-- A run of consecutive ticks; each list entry is (connection open?, time,
fused command).  Returns the final transmitter state and the times at which a
send occurred, in order. -/
def runTicks : TxState → List (Bool × ℚ × Command) → TxState × List ℚ
  | st, [] => (st, [])
  | st, (wsOpen, now, c) :: rest =>
    let r := tick st wsOpen now c.axisX c.axisY c.cross c.circle
    ((runTicks r.st rest).1,
     if r.sent.isSome then now :: (runTicks r.st rest).2 else (runTicks r.st rest).2)

/-- The `ws.onopen` handler (App.vue lines 64-66): it only logs; the
transmitter state is untouched. -/
def onopen (st : TxState) : TxState := st

/-- `setTimeout(connectWebSocket, 3000)`: the reconnect delay (App.vue line 71). -/
def RECONNECT_DELAY : ℚ := 3000

/-! ## Connection manager (App.vue lines 42-78) -/

/-- The `readyState` of a WebSocket. -/
inductive SockState where
  | connecting
  | opened
  | closing
  | closed
  deriving DecidableEq, Repr

/-- One WebSocket object ever created by `connectWebSocket`: its ready state,
whether its `onclose` handler is still attached (it is nulled only by
`onUnmounted`, App.vue line 52), and whether its close event has already been
delivered (a WebSocket fires `close` at most once). -/
structure Sock where
  state : SockState
  oncloseAttached : Bool
  closeFired : Bool
  deriving DecidableEq, Repr

/-- State of the connection manager: the store of every socket ever created
(`socks j` for `j < nSocks`), the module variable `ws` (`none` = `null`,
App.vue line 58), the pending reconnect timeouts as `(id, delay)` pairs, the
module variable `reconnectTimer` (the id returned by the last `setTimeout`,
line 59), a fresh-id counter, and whether `onUnmounted` has run. -/
structure CM where
  socks : Nat → Sock
  nSocks : Nat
  wsVar : Option Nat
  pending : List (Nat × ℚ)
  timerVar : Option Nat
  nextTimerId : Nat
  unmounted : Bool

/-- A freshly constructed WebSocket with the handlers of `connectWebSocket`
attached (App.vue lines 62-77). -/
def mkSock : Sock := { state := .connecting, oncloseAttached := true, closeFired := false }

/-- `connectWebSocket()` (App.vue lines 61-78): construct a new WebSocket and
assign it to `ws`. -/
def connectWebSocket (s : CM) : CM :=
  { s with socks := Function.update s.socks s.nSocks mkSock,
           nSocks := s.nSocks + 1,
           wsVar := some s.nSocks }

/-- `close()` on one socket object: a connecting or open socket starts
closing; on a closing or closed socket the call has no effect. -/
def closeSock (sk : Sock) : Sock :=
  if sk.state = SockState.connecting ∨ sk.state = SockState.opened then
    { sk with state := SockState.closing }
  else sk

/-- `ws.close()` on the module variable `ws` (used by the `onerror` handler,
App.vue line 76, and by `onUnmounted`, line 53); when `ws` is `null` the call
throws and changes nothing. -/
def wsClose (s : CM) : CM :=
  match s.wsVar with
  | none => s
  | some i => { s with socks := Function.update s.socks i (closeSock (s.socks i)) }

/-- `reconnectTimer = setTimeout(connectWebSocket, 3000)` (App.vue line 71). -/
def setTimeoutReconnect (s : CM) : CM :=
  { s with pending := (s.nextTimerId, RECONNECT_DELAY) :: s.pending,
           timerVar := some s.nextTimerId,
           nextTimerId := s.nextTimerId + 1 }

/-- Delivery of the browser `open` event to socket `i`: the socket becomes
open; the `onopen` handler only logs (App.vue lines 64-66). -/
def fireOpenEvt (s : CM) (i : Nat) : CM :=
  { s with socks := Function.update s.socks i ({ s.socks i with state := SockState.opened }) }

/-- Delivery of the browser `close` event to socket `i`: the socket is now
closed; if its `onclose` handler is still attached it runs `ws = null` and
schedules the reconnect timeout (App.vue lines 68-72). -/
def fireCloseEvt (s : CM) (i : Nat) : CM :=
  let v : Sock := { s.socks i with state := SockState.closed, closeFired := true }
  let s1 : CM := { s with socks := Function.update s.socks i v }
  if (s.socks i).oncloseAttached then setTimeoutReconnect { s1 with wsVar := none } else s1

/-- Delivery of the browser `error` event to socket `i`: the `onerror`
handler logs and calls `ws.close()` on the module variable (App.vue lines
74-77). -/
def fireErrorEvt (s : CM) (_i : Nat) : CM := wsClose s

/-- A pending reconnect timeout fires: it stops being pending and its
callback `connectWebSocket` runs (App.vue line 71). -/
def fireTimer (s : CM) (tid : Nat) : CM :=
  connectWebSocket { s with pending := s.pending.filter (fun t => !(t.1 == tid)) }

/-- `if (reconnectTimer) clearTimeout(reconnectTimer)` (App.vue line 50):
cancels the timeout whose id is stored in `reconnectTimer`, if it is still
pending. -/
def clearReconnectTimer (s : CM) : CM :=
  match s.timerVar with
  | none => s
  | some tid => { s with pending := s.pending.filter (fun t => !(t.1 == tid)) }

/-- The WebSocket part of the `onUnmounted` handler (App.vue lines 50-54):
clear any pending reconnect timeout, null the `onclose` handler of the
current socket and close it. -/
def unmountWs (s : CM) : CM :=
  let s1 := clearReconnectTimer s
  let s2 := match s1.wsVar with
    | none => s1
    | some i =>
      let v : Sock := { s1.socks i with oncloseAttached := false }
      wsClose { s1 with socks := Function.update s1.socks i v }
  { s2 with unmounted := true }

/-- The connection-manager state right after `onMounted` ran
`connectWebSocket()` (App.vue line 38). -/
def initCM : CM :=
  connectWebSocket { socks := fun _ => mkSock, nSocks := 0, wsVar := none,
                     pending := [], timerVar := none, nextTimerId := 1, unmounted := false }

/-- A socket holds a live transport connection: it is connecting or open. -/
def isLive (sk : Sock) : Bool :=
  (sk.state == SockState.connecting) || (sk.state == SockState.opened)

/-- A socket that can still fire a reconnect-scheduling close event: its close
event has not fired and its `onclose` handler is attached. -/
def isTracked (sk : Sock) : Bool := !sk.closeFired && sk.oncloseAttached

/-- Number of indices below `n` whose socket satisfies `p`. -/
def countIdx (f : Nat → Sock) (p : Sock → Bool) (n : Nat) : Nat :=
  ((Finset.range n).filter (fun j => p (f j) = true)).card

/-- Number of live transport connections. -/
def liveCount (s : CM) : Nat := countIdx s.socks isLive s.nSocks

/-- Number of sockets that can still schedule a reconnect. -/
def trackedCount (s : CM) : Nat := countIdx s.socks isTracked s.nSocks

/-- The browser events that the connection manager can receive, interleaved by
the single-threaded event queue: `open`, `close` or `error` events of a socket
that has not yet fired `close`, expiry of a pending timeout, and the (single)
unmount. -/
inductive CMStep : CM → CM → Prop where
  | openEvt {s : CM} (i : Nat) : i < s.nSocks → (s.socks i).state = SockState.connecting →
      (s.socks i).closeFired = false → CMStep s (fireOpenEvt s i)
  | closeEvt {s : CM} (i : Nat) : i < s.nSocks → (s.socks i).closeFired = false →
      CMStep s (fireCloseEvt s i)
  | errorEvt {s : CM} (i : Nat) : i < s.nSocks → (s.socks i).closeFired = false →
      CMStep s (fireErrorEvt s i)
  | timerEvt {s : CM} (tid : Nat) (d : ℚ) : (tid, d) ∈ s.pending → CMStep s (fireTimer s tid)
  | unmountEvt {s : CM} : s.unmounted = false → CMStep s (unmountWs s)

/-- The states reachable from the mounted component. -/
inductive CMReach : CM → Prop where
  | init : CMReach initCM
  | step {s t : CM} : CMReach s → CMStep s t → CMReach t

/-- The states reachable from a given state. -/
inductive CMReachFrom : CM → CM → Prop where
  | refl (s : CM) : CMReachFrom s s
  | step {s t u : CM} : CMReachFrom s t → CMStep t u → CMReachFrom s u

/-- The inductive invariant of the connection manager. -/
structure CMInv (s : CM) : Prop where
  closed_of_fired : ∀ i, i < s.nSocks → (s.socks i).closeFired = true →
    (s.socks i).state = SockState.closed
  attached_pre : s.unmounted = false → ∀ i, i < s.nSocks →
    (s.socks i).oncloseAttached = true
  budget_pre : s.unmounted = false → s.pending.length + trackedCount s = 1
  pending_post : s.unmounted = true → s.pending = []
  tracked_post : s.unmounted = true → trackedCount s = 0
  tracked_is_current : ∀ i, i < s.nSocks → isTracked (s.socks i) = true → s.wsVar = some i
  pending_delay : ∀ tid d, (tid, d) ∈ s.pending → d = RECONNECT_DELAY
  pending_var : ∀ tid d, (tid, d) ∈ s.pending → s.timerVar = some tid
  live_post : s.unmounted = true → ∀ i, i < s.nSocks → isLive (s.socks i) = false
  wsVar_lt : ∀ i, s.wsVar = some i → i < s.nSocks

-- END PASTE DEFS


/-! ## Animation-frame polling loop (App.vue lines 32-49, 80-144) -/

/-- State of the `requestAnimationFrame` machinery: the set of pending frame
callbacks (each a scheduled `gameLoop` invocation), the single module variable
`animationFrameId` (App.vue line 57), a fresh-id counter (browser handles are
positive), whether the `gamepadconnected` listener is attached, and whether
`onUnmounted` has run. -/
structure RafSys where
  pendingFrames : List Nat
  afid : Option Nat
  nextFrameId : Nat
  listenerAttached : Bool
  unmounted : Bool
  deriving DecidableEq, Repr

/-- `animationFrameId = requestAnimationFrame(gameLoop)` (App.vue lines 139
and 143): schedule a new frame callback and overwrite the shared id. -/
def requestAnimationFrame (s : RafSys) : RafSys :=
  { s with pendingFrames := s.nextFrameId :: s.pendingFrames,
           afid := some s.nextFrameId,
           nextFrameId := s.nextFrameId + 1 }

/-- `startGamepadPolling()` (App.vue lines 80-144): its observable effect on
the frame machinery is the initial `requestAnimationFrame` of line 143. -/
def startGamepadPolling (s : RafSys) : RafSys := requestAnimationFrame s

/-- State after `onMounted` (App.vue lines 32-40): the `gamepadconnected`
listener is attached and `startGamepadPolling()` was called once directly. -/
def rafInit : RafSys :=
  startGamepadPolling { pendingFrames := [], afid := none, nextFrameId := 1,
                        listenerAttached := true, unmounted := false }

/-- A pending frame fires: one `gameLoop` tick executes and reschedules
itself (App.vue line 139). -/
def fireFrame (s : RafSys) (fid : Nat) : RafSys :=
  requestAnimationFrame { s with pendingFrames := s.pendingFrames.filter (fun j => !(j == fid)) }

/-- The frame part of the `onUnmounted` handler (App.vue lines 44-49):
`cancelAnimationFrame(animationFrameId)` if the id is set, and removal of the
`gamepadconnected` listener. -/
def rafUnmount (s : RafSys) : RafSys :=
  let pf := match s.afid with
    | none => s.pendingFrames
    | some fid => s.pendingFrames.filter (fun j => !(j == fid))
  { s with pendingFrames := pf, listenerAttached := false, unmounted := true }

/-- The events of the polling loop: a pending frame fires (one tick runs),
a `gamepadconnected` event invokes `startGamepadPolling` again through the
listener, and the (single) unmount. -/
inductive RafStep : RafSys → RafSys → Prop where
  | frame {s : RafSys} (fid : Nat) : fid ∈ s.pendingFrames → RafStep s (fireFrame s fid)
  | gamepadConnected {s : RafSys} : s.listenerAttached = true →
      RafStep s (startGamepadPolling s)
  | unmountEvt {s : RafSys} : s.unmounted = false → RafStep s (rafUnmount s)

/-- The frame-machinery states reachable from the mounted component. -/
inductive RafReach : RafSys → Prop where
  | init : RafReach rafInit
  | step {s t : RafSys} : RafReach s → RafStep s t → RafReach t

/-! ## Theorems -/

/-- Claim C1: for every tick, whatever subset of the keys w/a/s/d is held and
whether or not an analog device is present (its reported axis values lying in
[-1,1]), the fused command's axisX and axisY are each within [-1,1]. -/
theorem C1_fused_axes_within_bounds (ks : KeyState) (gp : Option GamepadSample)
    (h : ∀ g, gp = some g → -1 ≤ g.axis0 ∧ g.axis0 ≤ 1 ∧ -1 ≤ g.axis1 ∧ g.axis1 ≤ 1) :
    -1 ≤ (fuse ks gp).axisX ∧ (fuse ks gp).axisX ≤ 1 ∧
    -1 ≤ (fuse ks gp).axisY ∧ (fuse ks gp).axisY ≤ 1 := by
  clear h
  cases gp with
  | some g =>
    refine ⟨le_max_left _ _, ?_, le_max_left _ _, ?_⟩ <;>
      · simp only [fuse]
        exact max_le (by norm_num) (min_le_left _ _)
  | none =>
    rcases ks with ⟨w, a, s, d⟩
    cases w <;> cases a <;> cases s <;> cases d <;> norm_num [fuse]

/-- Witness for C1 at a concrete input: keys `w` and `d` held, a controller
present reporting axes (0.9, −0.5). -/
theorem C1_fused_axes_within_bounds_witness :
    -1 ≤ (fuse ⟨true, false, false, true⟩ (some ⟨9/10, -1/2, true, false⟩)).axisX ∧
    (fuse ⟨true, false, false, true⟩ (some ⟨9/10, -1/2, true, false⟩)).axisX ≤ 1 ∧
    -1 ≤ (fuse ⟨true, false, false, true⟩ (some ⟨9/10, -1/2, true, false⟩)).axisY ∧
    (fuse ⟨true, false, false, true⟩ (some ⟨9/10, -1/2, true, false⟩)).axisY ≤ 1 :=
  C1_fused_axes_within_bounds ⟨true, false, false, true⟩ (some ⟨9/10, -1/2, true, false⟩)
    (by intro g hg; cases hg; norm_num)

/-- Claim C8: each fused axis equals the sum of all per-source contributions
(±1.0 per held key direction plus the analog axis value when a device is
present) clamped once, after summation, to [-1,1]; holding both opposing keys
on one axis yields zero net contribution, and an analog value of 0.9 combined
with the key `d` (pre-clamp sum 1.9) fuses to axisX = 1.0. -/
theorem C8_sum_then_clamp_once (ks : KeyState) (gp : Option GamepadSample) :
    (fuse ks gp).axisX = clamp (keyContribX ks + analogContribX gp) ∧
    (fuse ks gp).axisY = clamp (keyContribY ks + analogContribY gp) ∧
    keyContribX ⟨false, true, false, true⟩ = 0 ∧
    (fuse ⟨false, true, false, true⟩ none).axisX = 0 ∧
    (fuse ⟨false, false, false, true⟩ (some ⟨9/10, 0, false, false⟩)).axisX = 1 := by
  refine ⟨?_, ?_, by norm_num [keyContribX], by norm_num [fuse], ?_⟩
  · rcases ks with ⟨w, a, s, d⟩
    cases gp <;> cases a <;> cases d <;>
      simp [fuse, clamp, keyContribX, analogContribX]
  · rcases ks with ⟨w, a, s, d⟩
    cases gp <;> cases w <;> cases s <;>
      simp [fuse, clamp, keyContribY, analogContribY]
  · norm_num [fuse]

/-- Claim C10: on a tick with no analog device the fused axes are exactly the
raw (unclamped) keyboard sums, each lying in {-1, 0, 1} (all three values
attained), both triggers are false, and the [-1,1] bound holds even though the
clamping lines are not executed on this code path. -/
theorem C10_keyboard_only_values (ks : KeyState) :
    (fuse ks none).axisX = keyContribX ks ∧
    (fuse ks none).axisY = keyContribY ks ∧
    (keyContribX ks = -1 ∨ keyContribX ks = 0 ∨ keyContribX ks = 1) ∧
    (keyContribY ks = -1 ∨ keyContribY ks = 0 ∨ keyContribY ks = 1) ∧
    (fuse ks none).cross = false ∧ (fuse ks none).circle = false ∧
    -1 ≤ (fuse ks none).axisX ∧ (fuse ks none).axisX ≤ 1 ∧
    -1 ≤ (fuse ks none).axisY ∧ (fuse ks none).axisY ≤ 1 ∧
    (fuse ⟨false, true, false, false⟩ none).axisX = -1 ∧
    (fuse ⟨false, false, false, false⟩ none).axisX = 0 ∧
    (fuse ⟨false, false, false, true⟩ none).axisX = 1 := by
  rcases ks with ⟨w, a, s, d⟩
  cases w <;> cases a <;> cases s <;> cases d <;>
    norm_num [fuse, keyContribX, keyContribY]

/-- Every character produced by `natToDecList` is a decimal digit. -/
theorem natToDecList_digits (n : Nat) :
    ∀ c ∈ natToDecList n, ∃ d, d < 10 ∧ c = digitChar d := by
  induction n using Nat.strong_induction_on with
  | _ n ih =>
    rw [natToDecList]
    split
    · intro c hc
      simp only [List.mem_singleton] at hc
      exact ⟨n, by omega, hc⟩
    · intro c hc
      rw [List.mem_append] at hc
      rcases hc with hc | hc
      · exact ih (n / 10) (Nat.div_lt_self (by omega) (by omega)) c hc
      · simp only [List.mem_singleton] at hc
        exact ⟨n % 10, Nat.mod_lt _ (by omega), hc⟩

/-- Decimal digit characters are not escaped by `JSON.stringify`. -/
theorem escChar_digitChar (d : Nat) (hd : d < 10) :
    escChar (digitChar d) = [digitChar d] := by
  interval_cases d <;> decide

/-- No character of `pad3` is escaped by `JSON.stringify`. -/
theorem pad3_plain (n : Nat) : ∀ c ∈ pad3 n, escChar c = [c] := by
  intro c hc
  have hdig : ∀ c ∈ natToDecList n, escChar c = [c] := fun c hc => by
    obtain ⟨d, hd, rfl⟩ := natToDecList_digits n c hc
    exact escChar_digitChar d hd
  simp only [pad3] at hc
  split at hc
  · simp only [List.mem_cons] at hc
    rcases hc with rfl | rfl | hc
    · decide
    · decide
    · exact hdig c hc
  · split at hc
    · simp only [List.mem_cons] at hc
      rcases hc with rfl | hc
      · decide
      · exact hdig c hc
    · exact hdig c hc

/-- No character of `toFixed3` is escaped by `JSON.stringify`. -/
theorem toFixed3_plain (x : ℚ) : ∀ c ∈ toFixed3 x, escChar c = [c] := by
  have hmag : ∀ y : ℚ, ∀ c ∈ toFixed3Mag y, escChar c = [c] := by
    intro y c hc
    simp only [toFixed3Mag, List.mem_append, List.mem_cons] at hc
    rcases hc with hc | rfl | hc
    · obtain ⟨d, hd, rfl⟩ := natToDecList_digits _ c hc
      exact escChar_digitChar d hd
    · decide
    · exact pad3_plain _ c hc
  intro c hc
  simp only [toFixed3] at hc
  split at hc
  · simp only [List.mem_cons] at hc
    rcases hc with rfl | hc
    · decide
    · exact hmag _ c hc
  · exact hmag _ c hc

/-- `JSON.stringify` escaping is the identity on strings of unescaped
characters. -/
theorem escapeList_eq_self {l : List Char} (h : ∀ c ∈ l, escChar c = [c]) :
    escapeList l = l := by
  induction l with
  | nil => rfl
  | cons c cs ih =>
    simp only [escapeList]
    rw [h c (List.mem_cons_self c cs), ih (fun x hx => h x (List.mem_cons_of_mem _ hx))]
    rfl

/-- Claim C9: every record sent on the control connection is a text encoding
of exactly the object `\x7btype: "control", left_x, left_y, cross_b, circle_b\x7d`
with the axes as fixed-precision decimal strings (3 fractional digits) and the
triggers as booleans: the code's `JSON.stringify(controlData)` equals the
spec's wire record, and any record the tick sends is that record. -/
theorem C9_wire_record_format (lx ly : ℚ) (cross circle : Bool) (st : TxState)
    (wsOpen : Bool) (now : ℚ) :
    controlMessage lx ly cross circle = specWireRecord lx ly cross circle ∧
    ((tick st wsOpen now lx ly cross circle).sent).getD (specWireRecord lx ly cross circle) =
      specWireRecord lx ly cross circle := by
  have hmain : controlMessage lx ly cross circle = specWireRecord lx ly cross circle := by
    cases cross <;> cases circle <;>
    · refine congrArg String.mk ?_
      simp [stringifyObjList, controlData, stringifyFields, stringifyAtom, escapeList, escChar,
        escapeList_eq_self (toFixed3_plain lx), escapeList_eq_self (toFixed3_plain ly),
        List.append_assoc]
  refine ⟨hmain, ?_⟩
  simp only [tick]
  split
  · split
    · simp [hmain]
    · rfl
  · rfl

/-- C3 counterexample: with the connection open and exactly `SEND_INTERVAL`
(50 ms) elapsed since `lastSentTime`, the claim as stated requires a send
(elapsed ≥ 50 and open), but `gameLoop` compares with strict `>` and does not
send. -/
theorem C3_counterexample_boundary_elapsed :
    (50 : ℚ) - (0 : ℚ) ≥ SEND_INTERVAL ∧
    (gameLoopTick ⟨false, false, false, false⟩ none ⟨0, 0⟩ true 50).sent = none := by
  constructor
  · norm_num [SEND_INTERVAL]
  · norm_num [gameLoopTick, tick, SEND_INTERVAL, fuse]

/-- The send times of a run of ticks: each consecutive pair (starting from the
initial `lastSentTime`) is strictly more than `SEND_INTERVAL` apart. -/
theorem runTicks_chain (st : TxState) (ticks : List (Bool × ℚ × Command)) :
    List.Chain (fun t1 t2 => t2 - t1 > SEND_INTERVAL) st.lastSentTime (runTicks st ticks).2 := by
  induction ticks generalizing st with
  | nil => exact List.Chain.nil
  | cons t rest ih =>
    obtain ⟨wsOpen, now, c⟩ := t
    cases wsOpen with
    | false =>
      have ht : tick st false now c.axisX c.axisY c.cross c.circle =
          { st := { lastSentTime := st.lastSentTime, logCounter := st.logCounter + 1 },
            sent := none, warned := ((st.logCounter + 1) % 60 == 0) } := by
        simp [tick]
      have h2 := ih { lastSentTime := st.lastSentTime, logCounter := st.logCounter + 1 }
      simp only [runTicks, ht, Option.isSome_none, Bool.false_eq_true, if_false]
      exact h2
    | true =>
      by_cases hs : now - st.lastSentTime > SEND_INTERVAL
      · have ht : tick st true now c.axisX c.axisY c.cross c.circle =
            { st := { lastSentTime := now, logCounter := st.logCounter },
              sent := some (controlMessage c.axisX c.axisY c.cross c.circle),
              warned := false } := by
          simp [tick, hs]
        have h2 := ih { lastSentTime := now, logCounter := st.logCounter }
        simp only [runTicks, ht, Option.isSome_some, if_true]
        exact List.Chain.cons hs h2
      · have ht : tick st true now c.axisX c.axisY c.cross c.circle =
            { st := st, sent := none, warned := false } := by
          simp [tick, hs]
        have h2 := ih st
        simp only [runTicks, ht, Option.isSome_none, Bool.false_eq_true, if_false]
        exact h2

/-- Claim C3 (amended: the elapsed-time comparison is strict, `>` not `≥`):
on a tick with a fresh command, a send occurs iff the connection is open and
strictly more than `SEND_INTERVAL` (50 ms) elapsed since `lastSentTime`; on a
send, `lastSentTime` becomes the current time and the payload is the record of
this very tick's fused command; consecutive send times of any run are always
more than 50 ms apart. -/
theorem C3_amended_rate_limited_send (st : TxState) (ks : KeyState)
    (gp : Option GamepadSample) (wsOpen : Bool) (now : ℚ)
    (ticks : List (Bool × ℚ × Command)) :
    ((gameLoopTick ks gp st wsOpen now).sent.isSome ↔
      (wsOpen = true ∧ now - st.lastSentTime > SEND_INTERVAL)) ∧
    (wsOpen = true → now - st.lastSentTime > SEND_INTERVAL →
      (gameLoopTick ks gp st wsOpen now).st.lastSentTime = now ∧
      (gameLoopTick ks gp st wsOpen now).sent =
        some (controlMessage (fuse ks gp).axisX (fuse ks gp).axisY
          (fuse ks gp).cross (fuse ks gp).circle)) ∧
    List.Chain (fun t1 t2 => t2 - t1 > SEND_INTERVAL) st.lastSentTime (runTicks st ticks).2 := by
  refine ⟨?_, ?_, runTicks_chain st ticks⟩
  · cases hw : wsOpen
    · simp [gameLoopTick, tick]
    · by_cases hs : now - st.lastSentTime > SEND_INTERVAL <;>
        simp [gameLoopTick, tick, hs]
  · intro hw hs
    subst hw
    simp [gameLoopTick, tick, hs]

/-- Witness for C3 (amended) at a concrete input: open connection, elapsed 51
ms since the last send: the tick sends and updates `lastSentTime`. -/
theorem C3_amended_rate_limited_send_witness :
    (gameLoopTick ⟨false, false, false, false⟩ none ⟨0, 0⟩ true 51).st.lastSentTime = 51 ∧
    (gameLoopTick ⟨false, false, false, false⟩ none ⟨0, 0⟩ true 51).sent =
      some (controlMessage 0 0 false false) := by
  have h := C3_amended_rate_limited_send ⟨0, 0⟩ ⟨false, false, false, false⟩ none true 51 []
  have h2 := h.2.1 rfl (by norm_num [SEND_INTERVAL])
  refine ⟨h2.1, ?_⟩
  rw [h2.2]
  norm_num [fuse]

/-- Claim C4: on a tick on which the connection is not open, no send occurs
regardless of elapsed time, the command is dropped, and the diagnostic warning
is raised exactly on every 60th such tick (so on a 1/60 fraction and never on
two consecutive ticks, let alone all of them). -/
theorem C4_disconnected_no_send_throttled_warn (st : TxState)
    (now now2 lx ly lx2 ly2 : ℚ) (c1 c2 c3 c4 : Bool) :
    (tick st false now lx ly c1 c2).sent = none ∧
    (tick st false now lx ly c1 c2).warned = ((st.logCounter + 1) % 60 == 0) ∧
    (tick st false now lx ly c1 c2).st.logCounter = st.logCounter + 1 ∧
    (tick st false now lx ly c1 c2).st.lastSentTime = st.lastSentTime ∧
    ((tick st false now lx ly c1 c2).warned &&
      (tick (tick st false now lx ly c1 c2).st false now2 lx2 ly2 c3 c4).warned) = false := by
  refine ⟨rfl, rfl, rfl, rfl, ?_⟩
  simp only [tick, Bool.and_eq_false_iff]
  by_cases h : (st.logCounter + 1) % 60 = 0
  · right
    have h2 : (st.logCounter + 1 + 1) % 60 = 1 := by omega
    simp [h2]
  · left
    simp [h]

/-- C5 counterexample: the `onopen` handler performs no reset of the
transmitter state, and right after a transition to open (here with
`lastSentTime = 100` and the next tick at time 120) the tick does not send:
eligibility to send is not restored by the open transition itself. -/
theorem C5_counterexample_no_reset_on_open :
    onopen ⟨100, 0⟩ = ⟨100, 0⟩ ∧
    (tick (onopen ⟨100, 0⟩) true 120 0 0 false false).sent = none := by
  constructor
  · rfl
  · norm_num [onopen, tick, SEND_INTERVAL]

/-- Claim C5 (amended: `onopen` performs no reset; instead, because the
reconnect delay of 3000 ms exceeds `SEND_INTERVAL`, any open transition that
happens at least `RECONNECT_DELAY` after the last send leaves the very next
tick free to send immediately). -/
theorem C5_amended_immediate_send_after_reconnect (st : TxState)
    (tOpen now lx ly : ℚ) (c1 c2 : Bool)
    (hdelay : tOpen - st.lastSentTime ≥ RECONNECT_DELAY) (hnow : tOpen ≤ now) :
    onopen st = st ∧ (tick (onopen st) true now lx ly c1 c2).sent.isSome = true := by
  refine ⟨rfl, ?_⟩
  have hgt : now - st.lastSentTime > SEND_INTERVAL := by
    simp only [RECONNECT_DELAY] at hdelay
    simp only [SEND_INTERVAL]
    linarith
  simp [tick, onopen, hgt]

/-- Witness for C5 (amended) at a concrete input: last send at time 0, re-open
at time 3000, tick at time 3000: the tick may send immediately. -/
theorem C5_amended_immediate_send_after_reconnect_witness :
    onopen ⟨0, 0⟩ = ⟨0, 0⟩ ∧
    (tick (onopen ⟨0, 0⟩) true 3000 0 0 false false).sent.isSome = true :=
  C5_amended_immediate_send_after_reconnect ⟨0, 0⟩ 3000 3000 0 0 false false
    (by norm_num [RECONNECT_DELAY]) le_rfl

/-- Counting helper: replacing the socket at one index. -/
theorem countIdx_update (f : Nat → Sock) (p : Sock → Bool) {n i : Nat} (v : Sock)
    (hi : i < n) :
    countIdx (Function.update f i v) p n + (if p (f i) = true then 1 else 0) =
    countIdx f p n + (if p v = true then 1 else 0) := by
  classical
  unfold countIdx
  rw [Finset.card_filter, Finset.card_filter]
  have hfun : (fun j => if p (Function.update f i v j) = true then (1 : ℕ) else 0) =
      Function.update (fun j => if p (f j) = true then (1 : ℕ) else 0) i
        (if p v = true then 1 else 0) := by
    funext j
    rcases eq_or_ne j i with rfl | hj
    · simp
    · simp [Function.update_noteq hj]
  rw [hfun, Finset.sum_update_of_mem (Finset.mem_range.mpr hi),
    Finset.sum_eq_sum_diff_singleton_add (Finset.mem_range.mpr hi)
      (fun j => if p (f j) = true then (1 : ℕ) else 0)]
  ring

/-- Counting helper: appending one fresh socket. -/
theorem countIdx_extend (f : Nat → Sock) (p : Sock → Bool) (n : Nat) (v : Sock) :
    countIdx (Function.update f n v) p (n + 1) =
    countIdx f p n + (if p v = true then 1 else 0) := by
  classical
  unfold countIdx
  rw [Finset.range_succ, Finset.filter_insert]
  have hcongr : (Finset.range n).filter (fun j => p (Function.update f n v j) = true) =
      (Finset.range n).filter (fun j => p (f j) = true) := by
    apply Finset.filter_congr
    intro j hj
    rw [Finset.mem_range] at hj
    simp [Function.update_noteq (show j ≠ n by omega)]
  rw [Function.update_same]
  by_cases hp : p v = true
  · rw [if_pos hp, if_pos hp, Finset.card_insert_of_not_mem, hcongr]
    intro hmem
    have := Finset.filter_subset (fun j => p (Function.update f n v j) = true)
      (Finset.range n) hmem
    simp at this
  · rw [if_neg hp, if_neg hp, hcongr, Nat.add_zero]

/-- Counting helper: a zero count means no index satisfies the predicate. -/
theorem countIdx_eq_zero_iff (f : Nat → Sock) (p : Sock → Bool) (n : Nat) :
    countIdx f p n = 0 ↔ ∀ j, j < n → p (f j) = false := by
  unfold countIdx
  rw [Finset.card_eq_zero, Finset.filter_eq_empty_iff]
  constructor
  · intro h j hj
    have := h (Finset.mem_range.mpr hj)
    simpa [Bool.not_eq_true] using this
  · intro h j hj
    rw [Finset.mem_range] at hj
    simp [h j hj]

/-- Counting helper: an index satisfying the predicate makes the count
positive. -/
theorem countIdx_pos (f : Nat → Sock) (p : Sock → Bool) {n j : Nat} (hj : j < n)
    (hp : p (f j) = true) : 1 ≤ countIdx f p n := by
  unfold countIdx
  exact Finset.card_pos.mpr ⟨j, by simp [Finset.mem_filter, Finset.mem_range, hj, hp]⟩

/-- Counting helper: a positive count yields an index satisfying the
predicate. -/
theorem countIdx_pos_elim (f : Nat → Sock) (p : Sock → Bool) {n : Nat}
    (h : 1 ≤ countIdx f p n) : ∃ j, j < n ∧ p (f j) = true := by
  unfold countIdx at h
  rw [Nat.succ_le_iff, Finset.card_pos] at h
  obtain ⟨j, hj⟩ := h
  simp only [Finset.mem_filter, Finset.mem_range] at hj
  exact ⟨j, hj⟩

/-- Counting helper: pointwise implication is monotone on counts. -/
theorem countIdx_le (f : Nat → Sock) (p q : Sock → Bool) (n : Nat)
    (h : ∀ j, j < n → p (f j) = true → q (f j) = true) :
    countIdx f p n ≤ countIdx f q n := by
  apply Finset.card_le_card
  intro j hj
  simp only [Finset.mem_filter, Finset.mem_range] at hj ⊢
  exact ⟨hj.1, h j hj.1 hj.2⟩

theorem isTracked_eq_true {sk : Sock} :
    isTracked sk = true ↔ (sk.closeFired = false ∧ sk.oncloseAttached = true) := by
  rcases sk with ⟨st, att, cf⟩
  cases att <;> cases cf <;> simp [isTracked]

theorem isLive_eq_true {sk : Sock} :
    isLive sk = true ↔ (sk.state = SockState.connecting ∨ sk.state = SockState.opened) := by
  rcases sk with ⟨st, att, cf⟩
  cases st <;> simp [isLive]

theorem closeSock_state_closed {sk : Sock} (h : sk.state = SockState.closed) :
    closeSock sk = sk := by
  unfold closeSock
  rw [if_neg]
  rw [h]
  simp

theorem closeSock_closeFired (sk : Sock) : (closeSock sk).closeFired = sk.closeFired := by
  unfold closeSock
  split <;> rfl

theorem closeSock_oncloseAttached (sk : Sock) :
    (closeSock sk).oncloseAttached = sk.oncloseAttached := by
  unfold closeSock
  split <;> rfl

theorem isTracked_closeSock (sk : Sock) : isTracked (closeSock sk) = isTracked sk := by
  unfold closeSock
  split <;> rfl

theorem closeSock_not_live (sk : Sock) : isLive (closeSock sk) = false := by
  unfold closeSock
  split
  · simp [isLive]
  · case isFalse h =>
    cases hL : isLive sk
    · rfl
    · exact absurd (isLive_eq_true.mp hL) h

theorem initCM_socks (i : Nat) : initCM.socks i = mkSock := by
  rcases eq_or_ne i 0 with rfl | h
  · simp [initCM, connectWebSocket]
  · simp [initCM, connectWebSocket, Function.update_noteq h]

theorem cmInv_init : CMInv initCM := by
  have hn : initCM.nSocks = 1 := rfl
  have hw : initCM.wsVar = some 0 := rfl
  have hp : initCM.pending = [] := rfl
  have hu : initCM.unmounted = false := rfl
  have htr : trackedCount initCM = 1 := by
    show countIdx (Function.update (fun _ => mkSock) 0 mkSock) isTracked (0 + 1) = 1
    rw [countIdx_extend]
    simp [countIdx, isTracked, mkSock]
  refine ⟨?_, ?_, ?_, ?_, ?_, ?_, ?_, ?_, ?_, ?_⟩
  · intro i hi hcf
    rw [initCM_socks i] at hcf
    simp [mkSock] at hcf
  · intro _ i _
    rw [initCM_socks i]
    rfl
  · intro _
    rw [hp, htr]
    rfl
  · intro h
    rw [hu] at h
    cases h
  · intro h
    rw [hu] at h
    cases h
  · intro i hi _
    rw [hn] at hi
    have : i = 0 := by omega
    subst this
    exact hw
  · intro tid d hmem
    rw [hp] at hmem
    cases hmem
  · intro tid d hmem
    rw [hp] at hmem
    cases hmem
  · intro h
    rw [hu] at h
    cases h
  · intro i h
    rw [hw] at h
    injection h with h
    rw [hn]
    omega


/-- The open event preserves the invariant. -/
theorem cmInv_fireOpen {s : CM} (hs : CMInv s) (i : Nat) (hi : i < s.nSocks)
    (hconn : (s.socks i).state = SockState.connecting)
    (hcf : (s.socks i).closeFired = false) : CMInv (fireOpenEvt s i) := by
  have hum : s.unmounted = false := by
    cases hu : s.unmounted
    · rfl
    · have hl := hs.live_post hu i hi
      have hl2 : isLive (s.socks i) = true := isLive_eq_true.mpr (Or.inl hconn)
      rw [hl2] at hl
      cases hl
  have hcu := countIdx_update s.socks isTracked
    (Sock.mk SockState.opened (s.socks i).oncloseAttached (s.socks i).closeFired) hi
  have htrv : isTracked
      (Sock.mk SockState.opened (s.socks i).oncloseAttached (s.socks i).closeFired) =
      isTracked (s.socks i) := rfl
  rw [htrv] at hcu
  have htc : trackedCount (fireOpenEvt s i) = trackedCount s := by
    unfold trackedCount fireOpenEvt
    dsimp only
    omega
  refine ⟨?_, ?_, ?_, ?_, ?_, ?_, ?_, ?_, ?_, ?_⟩
  · intro j hj hcf2
    unfold fireOpenEvt at hj hcf2 ⊢
    dsimp only at hj hcf2 ⊢
    rcases eq_or_ne j i with rfl | hne
    · rw [Function.update_same] at hcf2
      dsimp only at hcf2
      rw [hcf] at hcf2
      cases hcf2
    · rw [Function.update_noteq hne] at hcf2 ⊢
      exact hs.closed_of_fired j hj hcf2
  · intro hum2 j hj
    unfold fireOpenEvt at hj ⊢
    dsimp only at hum2 hj ⊢
    rcases eq_or_ne j i with rfl | hne
    · rw [Function.update_same]
      exact hs.attached_pre hum2 j hj
    · rw [Function.update_noteq hne]
      exact hs.attached_pre hum2 j hj
  · intro hum2
    rw [htc]
    have hp : (fireOpenEvt s i).pending = s.pending := rfl
    rw [hp]
    exact hs.budget_pre hum2
  · intro hu
    exact hs.pending_post hu
  · intro hu
    rw [htc]
    exact hs.tracked_post hu
  · intro j hj htr
    rcases eq_or_ne j i with rfl | hne
    · refine hs.tracked_is_current j hj ?_
      have heq : isTracked ((fireOpenEvt s j).socks j) = isTracked (s.socks j) := by
        unfold fireOpenEvt
        dsimp only
        rw [Function.update_same]
        exact htrv
      rwa [heq] at htr

    · refine hs.tracked_is_current j hj ?_
      have heq : (fireOpenEvt s i).socks j = s.socks j := by
        unfold fireOpenEvt
        dsimp only
        rw [Function.update_noteq hne]
      rwa [heq] at htr
  · intro tid d hmem
    exact hs.pending_delay tid d hmem
  · intro tid d hmem
    exact hs.pending_var tid d hmem
  · intro hu
    rw [show (fireOpenEvt s i).unmounted = s.unmounted from rfl, hum] at hu
    cases hu
  · intro k hk
    exact hs.wsVar_lt k hk

/-- `ws.close()` preserves the invariant. -/
theorem cmInv_wsClose {s : CM} (hs : CMInv s) : CMInv (wsClose s) := by
  rcases hws : s.wsVar with _ | j
  · have heq : wsClose s = s := by
      unfold wsClose
      rw [hws]
    rw [heq]
    exact hs
  · have hj : j < s.nSocks := hs.wsVar_lt j hws
    have heq : wsClose s =
        { s with socks := Function.update s.socks j (closeSock (s.socks j)) } := by
      unfold wsClose
      rw [hws]
    rw [heq]
    have hcu := countIdx_update s.socks isTracked (closeSock (s.socks j)) hj
    rw [isTracked_closeSock] at hcu
    have htc : trackedCount
        { s with socks := Function.update s.socks j (closeSock (s.socks j)) } =
        trackedCount s := by
      unfold trackedCount
      dsimp only
      omega
  
    refine ⟨?_, ?_, ?_, ?_, ?_, ?_, ?_, ?_, ?_, ?_⟩
    · intro k hk hcf2
      dsimp only at hk hcf2 ⊢
      rcases eq_or_ne k j with rfl | hne
      · rw [Function.update_same] at hcf2 ⊢
        rw [closeSock_closeFired] at hcf2
        have hclosed := hs.closed_of_fired k hk hcf2
        rw [closeSock_state_closed hclosed]
        exact hclosed
      · rw [Function.update_noteq hne] at hcf2 ⊢
        exact hs.closed_of_fired k hk hcf2
    · intro hum2 k hk
      dsimp only at hum2 hk ⊢
      rcases eq_or_ne k j with rfl | hne
      · rw [Function.update_same, closeSock_oncloseAttached]
        exact hs.attached_pre hum2 k hk
      · rw [Function.update_noteq hne]
        exact hs.attached_pre hum2 k hk
    · intro hum2
      rw [htc]
      exact hs.budget_pre hum2
    · intro hu
      exact hs.pending_post hu
    · intro hu
      rw [htc]
      exact hs.tracked_post hu
    · intro k hk htr
      dsimp only at hk htr ⊢
      rcases eq_or_ne k j with rfl | hne
      · rw [Function.update_same, isTracked_closeSock] at htr
        exact hs.tracked_is_current k hk htr
      · rw [Function.update_noteq hne] at htr
        exact hs.tracked_is_current k hk htr
    · intro tid d hmem
      exact hs.pending_delay tid d hmem
    · intro tid d hmem
      exact hs.pending_var tid d hmem
    · intro hu k hk
      dsimp only at hu hk ⊢
      rcases eq_or_ne k j with rfl | hne
      · rw [Function.update_same]
        exact closeSock_not_live _
      · rw [Function.update_noteq hne]
        exact hs.live_post hu k hk
    · intro k hk
      exact hs.wsVar_lt k hk

/-- The error event preserves the invariant. -/
theorem cmInv_fireError {s : CM} (hs : CMInv s) (i : Nat) : CMInv (fireErrorEvt s i) :=
  cmInv_wsClose hs


/-- The close event preserves the invariant. -/
theorem cmInv_fireClose {s : CM} (hs : CMInv s) (i : Nat) (hi : i < s.nSocks)
    (hcf : (s.socks i).closeFired = false) : CMInv (fireCloseEvt s i) := by
  have hvtr : isTracked (Sock.mk SockState.closed (s.socks i).oncloseAttached true) = false := rfl
  have hcu := countIdx_update s.socks isTracked
    (Sock.mk SockState.closed (s.socks i).oncloseAttached true) hi
  rw [hvtr] at hcu
  have hcu2 : countIdx (Function.update s.socks i
        (Sock.mk SockState.closed (s.socks i).oncloseAttached true)) isTracked s.nSocks +
      (if isTracked (s.socks i) = true then 1 else 0) =
      countIdx s.socks isTracked s.nSocks := by
    simpa using hcu
  by_cases hatt : (s.socks i).oncloseAttached = true
  · -- onclose still attached: the handler nulls `ws` and schedules the timeout
    have htri : isTracked (s.socks i) = true := isTracked_eq_true.mpr ⟨hcf, hatt⟩
    have hum : s.unmounted = false := by
      cases hu : s.unmounted
      · rfl
      · exfalso
        have h0 := hs.tracked_post hu
        have h1 : 1 ≤ countIdx s.socks isTracked s.nSocks := countIdx_pos s.socks isTracked hi htri
        unfold trackedCount at h0
        omega
    have hb := hs.budget_pre hum
    have hpos : 1 ≤ countIdx s.socks isTracked s.nSocks := countIdx_pos s.socks isTracked hi htri
    have hlen0 : s.pending.length = 0 := by
      unfold trackedCount at hb
      omega
    have hpe : s.pending = [] := List.length_eq_zero.mp hlen0
    have heq : fireCloseEvt s i =
        { socks := Function.update s.socks i
            (Sock.mk SockState.closed (s.socks i).oncloseAttached true),
          nSocks := s.nSocks, wsVar := none,
          pending := [(s.nextTimerId, RECONNECT_DELAY)],
          timerVar := some s.nextTimerId, nextTimerId := s.nextTimerId + 1,
          unmounted := s.unmounted } := by
      unfold fireCloseEvt
      dsimp only
      rw [if_pos hatt]
      unfold setTimeoutReconnect
      dsimp only
      rw [hpe]
    rw [heq]
    rw [htri] at hcu2
    simp at hcu2
    refine ⟨?_, ?_, ?_, ?_, ?_, ?_, ?_, ?_, ?_, ?_⟩
    · intro j hj hcf2
      dsimp only at hj hcf2 ⊢
      rcases eq_or_ne j i with rfl | hne
      · rw [Function.update_same]
      · rw [Function.update_noteq hne] at hcf2 ⊢
        exact hs.closed_of_fired j hj hcf2
    · intro hum2 j hj
      dsimp only at hum2 hj ⊢
      rcases eq_or_ne j i with rfl | hne
      · rw [Function.update_same]
        exact hatt
      · rw [Function.update_noteq hne]
        exact hs.attached_pre hum2 j hj
    · intro _
      show [(s.nextTimerId, RECONNECT_DELAY)].length + countIdx (Function.update s.socks i
        (Sock.mk SockState.closed (s.socks i).oncloseAttached true)) isTracked s.nSocks = 1
      simp only [List.length_singleton]
      unfold trackedCount at hb
      omega
    · intro hu
      dsimp only at hu
      rw [hum] at hu
      cases hu
    · intro hu
      dsimp only at hu
      rw [hum] at hu
      cases hu
    · intro j hj htr
      exfalso
      dsimp only at hj htr
      rcases eq_or_ne j i with rfl | hne
      · rw [Function.update_same, hvtr] at htr
        cases htr
      · rw [Function.update_noteq hne] at htr
        have h1 := hs.tracked_is_current j hj htr
        have h2 := hs.tracked_is_current i hi htri
        rw [h1] at h2
        injection h2 with h2
        exact hne h2
    · intro tid d hmem
      dsimp only at hmem
      simp only [List.mem_singleton, Prod.mk.injEq] at hmem
      exact hmem.2
    · intro tid d hmem
      dsimp only at hmem ⊢
      simp only [List.mem_singleton, Prod.mk.injEq] at hmem
      rw [hmem.1]
    · intro hu
      dsimp only at hu
      rw [hum] at hu
      cases hu
    · intro k hk
      dsimp only at hk
      cases hk
  · -- onclose detached (only after unmount): the handler does not run
    have hattf : (s.socks i).oncloseAttached = false := by
      rw [Bool.not_eq_true] at hatt
      exact hatt
    have hum : s.unmounted = true := by
      cases hu : s.unmounted
      · exfalso
        have h1 := hs.attached_pre hu i hi
        rw [h1] at hattf
        cases hattf
      · rfl
    have heq : fireCloseEvt s i = { s with socks := Function.update s.socks i (Sock.mk SockState.closed (s.socks i).oncloseAttached true) } := by
      unfold fireCloseEvt
      dsimp only
      rw [if_neg hatt]
    rw [heq]
    have hpe : s.pending = [] := hs.pending_post hum
    have htr0 : trackedCount s = 0 := hs.tracked_post hum
    have htrif : isTracked (s.socks i) = false := by
      simp [isTracked, hattf]
    have hupd0 : countIdx (Function.update s.socks i (Sock.mk SockState.closed (s.socks i).oncloseAttached true)) isTracked s.nSocks = 0 := by
      rw [htrif] at hcu2
      simp at hcu2
      unfold trackedCount at htr0
      omega
    refine ⟨?_, ?_, ?_, ?_, ?_, ?_, ?_, ?_, ?_, ?_⟩
    · intro j hj hcf2
      dsimp only at hj hcf2 ⊢
      rcases eq_or_ne j i with rfl | hne
      · rw [Function.update_same]
      · rw [Function.update_noteq hne] at hcf2 ⊢
        exact hs.closed_of_fired j hj hcf2
    · intro hum2 j hj
      dsimp only at hum2
      rw [hum] at hum2
      cases hum2
    · intro hum2
      dsimp only at hum2
      rw [hum] at hum2
      cases hum2
    · intro _
      exact hpe
    · intro _
      exact hupd0
    · intro j hj htr
      dsimp only at hj htr ⊢
      rcases eq_or_ne j i with rfl | hne
      · rw [Function.update_same, hvtr] at htr
        cases htr
      · rw [Function.update_noteq hne] at htr
        exact hs.tracked_is_current j hj htr
    · intro tid d hmem
      exact hs.pending_delay tid d hmem
    · intro tid d hmem
      exact hs.pending_var tid d hmem
    · intro _ j hj
      dsimp only at hj ⊢
      rcases eq_or_ne j i with rfl | hne
      · rw [Function.update_same]
        rfl
      · rw [Function.update_noteq hne]
        exact hs.live_post hum j hj
    · intro k hk
      exact hs.wsVar_lt k hk


/-- Expiry of a pending reconnect timeout preserves the invariant. -/
theorem cmInv_fireTimer {s : CM} (hs : CMInv s) (tid : Nat) (d : ℚ)
    (hmem : (tid, d) ∈ s.pending) : CMInv (fireTimer s tid) := by
  have hum : s.unmounted = false := by
    cases hu : s.unmounted
    · rfl
    · exfalso
      have hp := hs.pending_post hu
      rw [hp] at hmem
      cases hmem
  have hb := hs.budget_pre hum
  have hlen1 : s.pending.length = 1 := by
    have hpos : 0 < s.pending.length := List.length_pos.mpr (List.ne_nil_of_mem hmem)
    omega
  have htr0 : trackedCount s = 0 := by omega
  have hsing : s.pending = [(tid, d)] := by
    obtain ⟨a, ha⟩ := List.length_eq_one.mp hlen1
    rw [ha] at hmem ⊢
    simp only [List.mem_singleton] at hmem
    rw [hmem]
  have hfil : s.pending.filter (fun t => !(t.1 == tid)) = [] := by
    rw [hsing]
    simp
  have heq : fireTimer s tid =
      { socks := Function.update s.socks s.nSocks mkSock, nSocks := s.nSocks + 1,
        wsVar := some s.nSocks, pending := [], timerVar := s.timerVar,
        nextTimerId := s.nextTimerId, unmounted := s.unmounted } := by
    unfold fireTimer connectWebSocket
    dsimp only
    rw [hfil]
  rw [heq]
  have hext := countIdx_extend s.socks isTracked s.nSocks mkSock
  have hmk : isTracked mkSock = true := rfl
  rw [hmk] at hext
  simp only [if_pos] at hext
  have hall : ∀ j, j < s.nSocks → isTracked (s.socks j) = false := by
    apply (countIdx_eq_zero_iff s.socks isTracked s.nSocks).mp
    unfold trackedCount at htr0
    exact htr0
  refine ⟨?_, ?_, ?_, ?_, ?_, ?_, ?_, ?_, ?_, ?_⟩
  · intro j hj hcf2
    dsimp only at hj hcf2 ⊢
    rcases eq_or_ne j s.nSocks with rfl | hne
    · rw [Function.update_same] at hcf2
      simp [mkSock] at hcf2
    · rw [Function.update_noteq hne] at hcf2 ⊢
      exact hs.closed_of_fired j (by omega) hcf2
  · intro _ j hj
    dsimp only at hj ⊢
    rcases eq_or_ne j s.nSocks with rfl | hne
    · rw [Function.update_same]
      rfl
    · rw [Function.update_noteq hne]
      exact hs.attached_pre hum j (by omega)
  · intro _
    show List.length ([] : List (Nat × ℚ)) +
      countIdx (Function.update s.socks s.nSocks mkSock) isTracked (s.nSocks + 1) = 1
    simp only [List.length_nil]
    unfold trackedCount at htr0
    omega
  · intro _
    rfl
  · intro hu
    dsimp only at hu
    rw [hum] at hu
    cases hu
  · intro j hj htr
    dsimp only at hj htr ⊢
    rcases eq_or_ne j s.nSocks with rfl | hne
    · rfl
    · exfalso
      rw [Function.update_noteq hne] at htr
      rw [hall j (by omega)] at htr
      cases htr
  · intro tid2 d2 hmem2
    dsimp only at hmem2
    cases hmem2
  · intro tid2 d2 hmem2
    dsimp only at hmem2
    cases hmem2
  · intro hu
    dsimp only at hu
    rw [hum] at hu
    cases hu
  · intro k hk
    dsimp only at hk ⊢
    injection hk with hk
    omega

/-- The unmount handler preserves the invariant. -/
theorem cmInv_unmount {s : CM} (hs : CMInv s) (hum : s.unmounted = false) :
    CMInv (unmountWs s) := by
  have hb := hs.budget_pre hum
  have hclear : clearReconnectTimer s = { s with pending := ([] : List (Nat × ℚ)) } := by
    rcases hlen : s.pending with _ | ⟨a, rest⟩
    · unfold clearReconnectTimer
      rcases htv : s.timerVar with _ | tid
      · dsimp only
        rw [← hlen, ← htv]
      · dsimp only
        rw [hlen, ← htv]
        rfl
    · rcases a with ⟨tid, dd⟩
      have htv := hs.pending_var tid dd (by rw [hlen]; exact List.mem_cons_self _ _)
      have hrest : rest = [] := by
        rw [hlen] at hb
        simp only [List.length_cons] at hb
        have : rest.length = 0 := by omega
        exact List.length_eq_zero.mp this
      unfold clearReconnectTimer
      rw [htv]
      dsimp only
      rw [hlen, hrest]
      simp
  rcases hws : s.wsVar with _ | i
  · -- `ws` is null at unmount: only the timer is cleared
    have heq : unmountWs s = { s with pending := [], unmounted := true } := by
      unfold unmountWs
      rw [hclear]
      dsimp only
      rw [hws]
    rw [heq]
    have htr0 : trackedCount s = 0 := by
      by_contra hne
      have hpos : 1 ≤ countIdx s.socks isTracked s.nSocks := by
        unfold trackedCount at hne
        omega
      obtain ⟨j, hj, htrj⟩ := countIdx_pos_elim s.socks isTracked hpos
      have := hs.tracked_is_current j hj htrj
      rw [hws] at this
      cases this
    have hall : ∀ j, j < s.nSocks → isTracked (s.socks j) = false := by
      apply (countIdx_eq_zero_iff s.socks isTracked s.nSocks).mp
      unfold trackedCount at htr0
      exact htr0
    refine ⟨?_, ?_, ?_, ?_, ?_, ?_, ?_, ?_, ?_, ?_⟩
    · intro j hj hcf2
      dsimp only at hj hcf2 ⊢
      exact hs.closed_of_fired j hj hcf2
    · intro hum2
      dsimp only at hum2
      cases hum2
    · intro hum2
      dsimp only at hum2
      cases hum2
    · intro _
      rfl
    · intro _
      show countIdx s.socks isTracked s.nSocks = 0
      unfold trackedCount at htr0
      exact htr0
    · intro j hj htrj
      dsimp only at hj htrj ⊢
      exfalso
      rw [hall j hj] at htrj
      cases htrj
    · intro tid2 d2 hmem2
      dsimp only at hmem2
      cases hmem2
    · intro tid2 d2 hmem2
      dsimp only at hmem2
      cases hmem2
    · intro _ j hj
      dsimp only at hj ⊢
      have hattj := hs.attached_pre hum j hj
      have htrj := hall j hj
      have hcfj : (s.socks j).closeFired = true := by
        cases hcf2 : (s.socks j).closeFired
        · exfalso
          have h2 := isTracked_eq_true.mpr ⟨hcf2, hattj⟩
          rw [h2] at htrj
          cases htrj
        · rfl
      have hst := hs.closed_of_fired j hj hcfj
      unfold isLive
      rw [hst]
      rfl
    · intro k hk
      dsimp only at hk
      exact hs.wsVar_lt k hk
  · -- `ws` points at socket `i`: detach its handler and close it
    have hi : i < s.nSocks := hs.wsVar_lt i hws
    have heq : unmountWs s = { s with socks := Function.update s.socks i (closeSock (Sock.mk (s.socks i).state false (s.socks i).closeFired)), pending := [], unmounted := true } := by
      unfold unmountWs
      rw [hclear]
      dsimp only
      rw [hws]
      unfold wsClose
      dsimp only
      rw [Function.update_same, Function.update_idem]
    rw [heq]
    have hattn : isTracked (closeSock (Sock.mk (s.socks i).state false (s.socks i).closeFired)) =
        false := by
      rw [isTracked_closeSock]
      simp [isTracked]
    have hcu := countIdx_update s.socks isTracked
      (closeSock (Sock.mk (s.socks i).state false (s.socks i).closeFired)) hi
    rw [hattn] at hcu
    simp only [Bool.false_eq_true, if_false, Nat.add_zero] at hcu
    have hupd0 : countIdx (Function.update s.socks i
        (closeSock (Sock.mk (s.socks i).state false (s.socks i).closeFired)))
        isTracked s.nSocks = 0 := by
      cases hcase : isTracked (s.socks i)
      · have hall0 : countIdx s.socks isTracked s.nSocks = 0 := by
          rw [countIdx_eq_zero_iff]
          intro j hj
          cases htj : isTracked (s.socks j)
          · rfl
          · exfalso
            have h2 := hs.tracked_is_current j hj htj
            rw [hws] at h2
            injection h2 with h2
            subst h2
            rw [htj] at hcase
            cases hcase
        rw [hcase] at hcu
        simp only [Bool.false_eq_true, if_false, Nat.add_zero] at hcu
        omega
      · rw [hcase] at hcu
        simp only [if_pos] at hcu
        unfold trackedCount at hb
        omega
    refine ⟨?_, ?_, ?_, ?_, ?_, ?_, ?_, ?_, ?_, ?_⟩
    · intro j hj hcf2
      dsimp only at hj hcf2 ⊢
      rcases eq_or_ne j i with rfl | hne
      · rw [Function.update_same] at hcf2 ⊢
        rw [closeSock_closeFired] at hcf2
        have hcfj : (s.socks j).closeFired = true := hcf2
        have hst := hs.closed_of_fired j hj hcfj
        have hstv : (Sock.mk (s.socks j).state false (s.socks j).closeFired).state =
            SockState.closed := hst
        rw [closeSock_state_closed hstv]
        exact hst
      · rw [Function.update_noteq hne] at hcf2 ⊢
        exact hs.closed_of_fired j hj hcf2
    · intro hum2
      dsimp only at hum2
      cases hum2
    · intro hum2
      dsimp only at hum2
      cases hum2
    · intro _
      rfl
    · intro _
      exact hupd0
    · intro j hj htrj
      dsimp only at hj htrj ⊢
      rcases eq_or_ne j i with rfl | hne
      · exfalso
        rw [Function.update_same, hattn] at htrj
        cases htrj
      · rw [Function.update_noteq hne] at htrj
        exact hs.tracked_is_current j hj htrj
    · intro tid2 d2 hmem2
      dsimp only at hmem2
      cases hmem2
    · intro tid2 d2 hmem2
      dsimp only at hmem2
      cases hmem2
    · intro _ j hj
      dsimp only at hj ⊢
      rcases eq_or_ne j i with rfl | hne
      · rw [Function.update_same]
        exact closeSock_not_live _
      · rw [Function.update_noteq hne]
        have hattj := hs.attached_pre hum j hj
        have htrjf : isTracked (s.socks j) = false := by
          cases htj : isTracked (s.socks j)
          · rfl
          · exfalso
            have h2 := hs.tracked_is_current j hj htj
            rw [hws] at h2
            injection h2 with h2
            exact hne h2.symm
        have hcfj : (s.socks j).closeFired = true := by
          cases hcf2 : (s.socks j).closeFired
          · exfalso
            have h2 := isTracked_eq_true.mpr ⟨hcf2, hattj⟩
            rw [h2] at htrjf
            cases htrjf
          · rfl
        have hst := hs.closed_of_fired j hj hcfj
        unfold isLive
        rw [hst]
        rfl
    · intro k hk
      dsimp only at hk ⊢
      exact hs.wsVar_lt k hk

/-- Every step of the connection manager preserves the invariant. -/
theorem cmInv_step {s t : CM} (hs : CMInv s) (h : CMStep s t) : CMInv t := by
  cases h with
  | openEvt i hi hconn hcf => exact cmInv_fireOpen hs i hi hconn hcf
  | closeEvt i hi hcf => exact cmInv_fireClose hs i hi hcf
  | errorEvt i hi hcf => exact cmInv_fireError hs i
  | timerEvt tid d hmem => exact cmInv_fireTimer hs tid d hmem
  | unmountEvt hum => exact cmInv_unmount hs hum

/-- Every reachable connection-manager state satisfies the invariant. -/
theorem cmInv_reach {s : CM} (h : CMReach s) : CMInv s := by
  induction h with
  | init => exact cmInv_init
  | step _ hstep ih => exact cmInv_step ih hstep


theorem wsClose_unmounted (s : CM) : (wsClose s).unmounted = s.unmounted := by
  unfold wsClose
  rcases h : s.wsVar with _ | j <;> rfl

theorem wsClose_nSocks (s : CM) : (wsClose s).nSocks = s.nSocks := by
  unfold wsClose
  rcases h : s.wsVar with _ | j <;> rfl

theorem clearReconnectTimer_nSocks (s : CM) :
    (clearReconnectTimer s).nSocks = s.nSocks := by
  unfold clearReconnectTimer
  rcases h : s.timerVar with _ | tid <;> rfl

theorem unmountWs_unmounted (s : CM) : (unmountWs s).unmounted = true := rfl

theorem unmountWs_nSocks (s : CM) : (unmountWs s).nSocks = s.nSocks := by
  unfold unmountWs
  dsimp only
  rcases h : (clearReconnectTimer s).wsVar with _ | i
  · dsimp only
    exact clearReconnectTimer_nSocks s
  · dsimp only
    rw [wsClose_nSocks]
    dsimp only
    exact clearReconnectTimer_nSocks s

/-- Claim C2: a transport close while the connection is open moves the system
to the disconnected state (`ws = null`) and schedules exactly one reconnect
attempt with the fixed 3000 ms delay; moreover in every reachable state there
is at most one live transport connection and at most one pending reconnect
timeout. -/
theorem C2_single_connection_single_reconnect (s : CM) (hr : CMReach s) :
    (liveCount s ≤ 1 ∧ s.pending.length ≤ 1) ∧
    (∀ i, s.wsVar = some i → (s.socks i).state = SockState.opened →
      (fireCloseEvt s i).wsVar = none ∧
      (fireCloseEvt s i).pending = [(s.nextTimerId, RECONNECT_DELAY)]) := by
  have hs := cmInv_reach hr
  constructor
  · constructor
    · cases hu : s.unmounted
      · have hle : liveCount s ≤ trackedCount s := by
          unfold liveCount trackedCount
          apply countIdx_le
          intro j hj hlv
          have hcfj : (s.socks j).closeFired = false := by
            cases hcf2 : (s.socks j).closeFired
            · rfl
            · exfalso
              have hst := hs.closed_of_fired j hj hcf2
              rw [isLive_eq_true] at hlv
              rcases hlv with h | h <;> rw [hst] at h <;> cases h
          exact isTracked_eq_true.mpr ⟨hcfj, hs.attached_pre hu j hj⟩
        have hb := hs.budget_pre hu
        omega
      · have h0 : liveCount s = 0 := by
          unfold liveCount
          rw [countIdx_eq_zero_iff]
          exact hs.live_post hu
        omega
    · cases hu : s.unmounted
      · have hb := hs.budget_pre hu
        omega
      · rw [hs.pending_post hu]
        simp
  · intro i hws hopen
    have hi : i < s.nSocks := hs.wsVar_lt i hws
    have hlv : isLive (s.socks i) = true := isLive_eq_true.mpr (Or.inr hopen)
    have hum : s.unmounted = false := by
      cases hu : s.unmounted
      · rfl
      · exfalso
        have h2 := hs.live_post hu i hi
        rw [hlv] at h2
        cases h2
    have hcf : (s.socks i).closeFired = false := by
      cases hcf2 : (s.socks i).closeFired
      · rfl
      · exfalso
        have hst := hs.closed_of_fired i hi hcf2
        rw [hst] at hopen
        cases hopen
    have hatt : (s.socks i).oncloseAttached = true := hs.attached_pre hum i hi
    have htri : isTracked (s.socks i) = true := isTracked_eq_true.mpr ⟨hcf, hatt⟩
    have hb := hs.budget_pre hum
    have hpos : 1 ≤ countIdx s.socks isTracked s.nSocks := countIdx_pos s.socks isTracked hi htri
    have hpe : s.pending = [] := by
      unfold trackedCount at hb
      have hl0 : s.pending.length = 0 := by omega
      exact List.length_eq_zero.mp hl0
    unfold fireCloseEvt
    dsimp only
    rw [if_pos hatt]
    unfold setTimeoutReconnect
    dsimp only
    rw [hpe]
    exact ⟨rfl, rfl⟩

/-- Witness for C2 at a concrete reachable state: the initial connection after
its successful open handshake, receiving a close event. -/
theorem C2_single_connection_single_reconnect_witness :
    (liveCount (fireOpenEvt initCM 0) ≤ 1 ∧ (fireOpenEvt initCM 0).pending.length ≤ 1) ∧
    ((fireCloseEvt (fireOpenEvt initCM 0) 0).wsVar = none ∧
     (fireCloseEvt (fireOpenEvt initCM 0) 0).pending =
       [((fireOpenEvt initCM 0).nextTimerId, RECONNECT_DELAY)]) := by
  have hr : CMReach (fireOpenEvt initCM 0) :=
    CMReach.step CMReach.init (CMStep.openEvt 0 (by decide) (by decide) (by decide))
  have h := C2_single_connection_single_reconnect (fireOpenEvt initCM 0) hr
  exact ⟨h.1, h.2 0 (by decide) (by decide)⟩

/-- After unmount no step re-mounts, creates a socket, or schedules a timer. -/
theorem cmStep_post_unmount {u v : CM} (hi : CMInv u) (hu : u.unmounted = true)
    (h : CMStep u v) : v.unmounted = true ∧ v.nSocks = u.nSocks := by
  cases h with
  | openEvt i hlt hconn hcf =>
    exfalso
    have h2 := hi.live_post hu i hlt
    have h3 : isLive (u.socks i) = true := isLive_eq_true.mpr (Or.inl hconn)
    rw [h3] at h2
    cases h2
  | closeEvt i hlt hcf =>
    have hatt : ¬((u.socks i).oncloseAttached = true) := by
      cases ha : (u.socks i).oncloseAttached
      · simp
      · exfalso
        have htr := isTracked_eq_true.mpr ⟨hcf, ha⟩
        have h0 := hi.tracked_post hu
        have hp := countIdx_pos u.socks isTracked hlt htr
        unfold trackedCount at h0
        omega
    constructor
    · unfold fireCloseEvt
      dsimp only
      rw [if_neg hatt]
      exact hu
    · unfold fireCloseEvt
      dsimp only
      rw [if_neg hatt]
  | errorEvt i hlt hcf =>
    exact ⟨(wsClose_unmounted u).trans hu, wsClose_nSocks u⟩
  | timerEvt tid d hmem =>
    exfalso
    rw [hi.pending_post hu] at hmem
    cases hmem
  | unmountEvt hum2 =>
    rw [hu] at hum2
    cases hum2

/-- Along any run from an unmounted state, the invariant holds, the system
stays unmounted and no socket is ever created. -/
theorem cmReachFrom_post_unmount {s t : CM} (hs : CMInv s) (hu : s.unmounted = true)
    (h : CMReachFrom s t) : CMInv t ∧ t.unmounted = true ∧ t.nSocks = s.nSocks := by
  induction h with
  | refl => exact ⟨hs, hu, rfl⟩
  | step hprev hstep ih =>
    obtain ⟨hi2, hu2, hn⟩ := ih
    have h2 := cmStep_post_unmount hi2 hu2 hstep
    exact ⟨cmInv_step hi2 hstep, h2.1, h2.2.trans hn⟩

/-- Claim C6: if shutdown occurs while a reconnect timer is pending, the timer
is cancelled and the close-triggered reconnect logic is suppressed: in the
unmounted state no timeout is pending, and in every state reachable from it no
timeout is pending and no connection attempt (socket creation) has occurred. -/
theorem C6_unmount_cancels_reconnect (s t : CM) (hr : CMReach s)
    (hm : s.unmounted = false) (hp : s.pending ≠ [])
    (ht : CMReachFrom (unmountWs s) t) :
    (unmountWs s).pending = [] ∧ t.pending = [] ∧ t.nSocks = s.nSocks := by
  have hs := cmInv_reach hr
  have hinv : CMInv (unmountWs s) := cmInv_step hs (CMStep.unmountEvt hm)
  have humt : (unmountWs s).unmounted = true := unmountWs_unmounted s
  have hfrozen := cmReachFrom_post_unmount hinv humt ht
  refine ⟨hinv.pending_post humt, hfrozen.1.pending_post hfrozen.2.1, ?_⟩
  rw [hfrozen.2.2]
  exact unmountWs_nSocks s

/-- Witness for C6 at a concrete reachable state: open then close the initial
connection (a reconnect timeout is then pending), then unmount. -/
theorem C6_unmount_cancels_reconnect_witness :
    (unmountWs (fireCloseEvt (fireOpenEvt initCM 0) 0)).pending = [] ∧
    (unmountWs (fireCloseEvt (fireOpenEvt initCM 0) 0)).pending = [] ∧
    (unmountWs (fireCloseEvt (fireOpenEvt initCM 0) 0)).nSocks =
      (fireCloseEvt (fireOpenEvt initCM 0) 0).nSocks := by
  have hr : CMReach (fireCloseEvt (fireOpenEvt initCM 0) 0) :=
    CMReach.step (CMReach.step CMReach.init
      (CMStep.openEvt 0 (by decide) (by decide) (by decide)))
      (CMStep.closeEvt 0 (by decide) (by decide))
  exact C6_unmount_cancels_reconnect _ _ hr (by decide) (by decide) (CMReachFrom.refl _)


/-- Claim C7 fails on the code (code bug): `startGamepadPolling` is both called
directly at mount and registered as the `gamepadconnected` listener, so a
`gamepadconnected` event starts a second `requestAnimationFrame` chain while
both chains share the one `animationFrameId` variable.  In the execution
mount → gamepadconnected → unmount, the unmount handler cancels only the
most recently scheduled frame (id 2); the first chain's frame (id 1) is still
pending after unmount and can fire, so a sample→fuse→transmit tick executes
after the unmount handler ran. -/
theorem C7_bug_tick_after_unmount :
    RafReach (rafUnmount (startGamepadPolling rafInit)) ∧
    (rafUnmount (startGamepadPolling rafInit)).unmounted = true ∧
    1 ∈ (rafUnmount (startGamepadPolling rafInit)).pendingFrames ∧
    RafStep (rafUnmount (startGamepadPolling rafInit))
      (fireFrame (rafUnmount (startGamepadPolling rafInit)) 1) := by
  refine ⟨?_, by decide, by decide, RafStep.frame 1 (by decide)⟩
  exact RafReach.step (RafReach.step RafReach.init
    (RafStep.gamepadConnected (by decide))) (RafStep.unmountEvt (by decide))

end RCFront
